import Mathlib

/-!
Shallow embedding of the SMC analysis core of `src/frontend/services/smcService.ts`:
swing detection (`findSwingPoints`), structure analysis and entry tracking
(`analyzeSMC`), backtest simulation (`runBacktest`) and parameter optimization
(`runOptimizer`).

Modelling conventions:
* JavaScript numbers are modelled as exact rationals (`ℚ`); candle timestamps
  (`Time`, epoch seconds) as integers (`ℤ`).
* Division by zero yields `0` in `ℚ` where JavaScript would produce
  `Infinity`/`NaN`; theorems about quantities that could divide by zero carry
  nonzero hypotheses so that nothing is claimed outside the faithful domain.
* The `Infinity` profit factor of a run without losses is modelled as
  `⊤ : WithTop ℚ`.
* JavaScript `Array.prototype.sort` with a consistent comparator is a stable
  sort; it is modelled by `List.mergeSort`, which is also stable.
-/

namespace SMC

/-- Trade direction, `'Bullish' | 'Bearish'` in `types.ts`. -/
inductive Direction
  | Bullish
  | Bearish
deriving DecidableEq, Inhabited

/-- Outcome of an executed trade, `'Win' | 'Loss' | 'Open'` in `types.ts`. -/
inductive Outcome
  | Win
  | Loss
  | Open
deriving DecidableEq, Inhabited

/-- Swing-point kind, the `type: 'high' | 'low'` field of `SwingPoint`. -/
inductive SPType
  | high
  | low
deriving DecidableEq, Inhabited

/-- Stop-loss mode, `slType: 'structure' | 'fixed'` in `Settings`
(`structural` embeds `'structure'`, a Lean keyword). -/
inductive SlType
  | structural
  | fixed
deriving DecidableEq, Inhabited

/-- Candle `{time, open, high, low, close}` from `types.ts`; the field `opn`
embeds `open`, which is a Lean keyword. -/
structure Candle where
  time : ℤ
  opn : ℚ
  high : ℚ
  low : ℚ
  close : ℚ
deriving DecidableEq, Inhabited

/-- SwingPoint `{time, price, type}` from `types.ts`. -/
structure SwingPoint where
  time : ℤ
  price : ℚ
  type : SPType
deriving DecidableEq, Inhabited

/-- Result pair `{highs, lows}` of `findSwingPoints`. -/
structure SwingResult where
  highs : List SwingPoint
  lows : List SwingPoint
deriving DecidableEq, Inhabited

/-- BOS `{time, price}` from `types.ts`. -/
structure BOS where
  time : ℤ
  price : ℚ
deriving DecidableEq, Inhabited

/-- CHoCH `{time, price}` from `types.ts`. -/
structure CHoCH where
  time : ℤ
  price : ℚ
deriving DecidableEq, Inhabited

/-- POI zone; `analyzeSMC` works with POIs carrying a `direction` tag, so the
direction is included here. -/
structure POI where
  startTime : ℤ
  endTime : ℤ
  top : ℚ
  bottom : ℚ
  direction : Direction
deriving DecidableEq, Inhabited

/-- TradeSignal `{entryTime, entryPrice, stopLoss, takeProfit, type}`. -/
structure TradeSignal where
  entryTime : ℤ
  entryPrice : ℚ
  stopLoss : ℚ
  takeProfit : ℚ
  type : Direction
deriving DecidableEq, Inhabited

/-- Drawable annotation pushed onto `allDrawings` by `analyzeSMC`. -/
inductive Drawing
  | bosD : BOS → Drawing
  | poiD : POI → Drawing
  | chochD : CHoCH → Drawing
deriving DecidableEq

/-- The analytical subset of `Settings` from `types.ts` (the fetching, UI,
Telegram and exchange-credential fields play no role in the analytical core
and are omitted).  The lookbacks are naturals, as the analysis indexes candle
arrays with them. -/
structure Settings where
  htfSwingLookback : ℕ
  ltfChochLookback : ℕ
  discountZone : ℚ
  useFvgFilter : Bool
  useLiquiditySweepFilter : Bool
  initialCapital : ℚ
  orderSizePercent : ℚ
  rrRatio : ℚ
  commissionPercent : ℚ
  filterByCommission : Bool
  slType : SlType
  fixedSlValue : ℚ
deriving DecidableEq, Inhabited

/-- ChartData `{htf, mtf, ltf}` from `types.ts`. -/
structure ChartData where
  htf : List Candle
  mtf : List Candle
  ltf : List Candle
deriving DecidableEq, Inhabited

/-- SMCAnalysisResult `{trades, drawings}` from `types.ts`. -/
structure SMCAnalysisResult where
  trades : List TradeSignal
  drawings : List Drawing
deriving DecidableEq

/-- Element access `data[i]`, total via the default candle (only applied at
in-range indices by the functions below). -/
def candleAt (data : List Candle) (i : ℕ) : Candle :=
  data.getD i default

/-- The inner loop of `findSwingPoints` for the `isHigh` flag: candle `i` keeps
`isHigh` iff for every `1 ≤ j ≤ lookback` neither
`data[i].high < data[i-j].high` nor `data[i].high <= data[i+j].high` holds
(note the asymmetry: `<` on the left, `<=` on the right). -/
def isSwingHighAt (data : List Candle) (lookback i : ℕ) : Bool :=
  (List.range lookback).all fun j0 =>
    let j := j0 + 1
    decide (¬ ((candleAt data i).high < (candleAt data (i - j)).high ∨
               (candleAt data i).high ≤ (candleAt data (i + j)).high))

/-- The inner loop of `findSwingPoints` for the `isLow` flag: candle `i` keeps
`isLow` iff for every `1 ≤ j ≤ lookback` neither
`data[i].low > data[i-j].low` nor `data[i].low >= data[i+j].low` holds. -/
def isSwingLowAt (data : List Candle) (lookback i : ℕ) : Bool :=
  (List.range lookback).all fun j0 =>
    let j := j0 + 1
    decide (¬ ((candleAt data (i - j)).low < (candleAt data i).low ∨
               (candleAt data (i + j)).low ≤ (candleAt data i).low))

/-- `findSwingPoints(data, lookback)` from `smcService.ts` (lines 298-315):
series shorter than `2*lookback+1` give empty results, otherwise indices
`lookback ≤ i < data.length - lookback` are scanned and flagged candles are
collected in index (= time) order. -/
def findSwingPoints (data : List Candle) (lookback : ℕ) : SwingResult :=
  if data.length < lookback * 2 + 1 then { highs := [], lows := [] }
  else
    { highs := (List.range' lookback (data.length - 2 * lookback)).filterMap fun i =>
        if isSwingHighAt data lookback i then
          some { time := (candleAt data i).time, price := (candleAt data i).high, type := .high }
        else none
      lows := (List.range' lookback (data.length - 2 * lookback)).filterMap fun i =>
        if isSwingLowAt data lookback i then
          some { time := (candleAt data i).time, price := (candleAt data i).low, type := .low }
        else none }

/-- Statement of claim C1 as written, at one concrete input: every flagged
swing high is strictly greater than the highs of all its `2*lookback`
neighbors and every flagged swing low strictly smaller than their lows
(ties disqualify on both sides). -/
def strictSwingClaimAt (data : List Candle) (lookback : ℕ) : Prop :=
  (∀ sp ∈ (findSwingPoints data lookback).highs, ∀ i < data.length,
      (candleAt data i).time = sp.time →
      ∀ j < lookback + 1, 1 ≤ j →
        (j ≤ i → (candleAt data (i - j)).high < sp.price) ∧
        (i + j < data.length → (candleAt data (i + j)).high < sp.price)) ∧
  (∀ sp ∈ (findSwingPoints data lookback).lows, ∀ i < data.length,
      (candleAt data i).time = sp.time →
      ∀ j < lookback + 1, 1 ≤ j →
        (j ≤ i → sp.price < (candleAt data (i - j)).low) ∧
        (i + j < data.length → sp.price < (candleAt data (i + j)).low))

/-- Candle with the given high (resp. low), other fields zero; used for
concrete counterexamples. -/
def mkHighLowCandle (t : ℤ) (h l : ℚ) : Candle :=
  { time := t, opn := 0, high := h, low := l, close := 0 }

/-- Concrete three-candle series whose middle candle ties its left neighbor's
high (5, 5, 3) and its left neighbor's low would not interfere. -/
def c1CexData : List Candle :=
  [mkHighLowCandle 0 5 1, mkHighLowCandle 1 5 0, mkHighLowCandle 2 3 2]

/-- Characterization of membership in the `highs` output of `findSwingPoints`:
a flagged swing high comes from an index `i` with `lookback` candles on both
sides whose `isHigh` flag survived the inner loop. -/
theorem mem_findSwingPoints_highs {data : List Candle} {lookback : ℕ} {sp : SwingPoint}
    (hsp : sp ∈ (findSwingPoints data lookback).highs) :
    ∃ i, lookback ≤ i ∧ i + lookback < data.length ∧
      isSwingHighAt data lookback i = true ∧
      sp = { time := (candleAt data i).time, price := (candleAt data i).high, type := .high } := by
  unfold findSwingPoints at hsp
  by_cases hlen : data.length < lookback * 2 + 1
  · simp [hlen] at hsp
  · simp only [hlen, if_false, List.mem_filterMap] at hsp
    obtain ⟨i, hi, hif⟩ := hsp
    rw [List.mem_range'] at hi
    obtain ⟨k, hk, rfl⟩ := hi
    split at hif
    · next h =>
      refine ⟨lookback + 1 * k, by omega, by omega, h, ?_⟩
      exact (Option.some.inj hif).symm
    · next h => simp at hif

/-- Characterization of membership in the `lows` output of `findSwingPoints`. -/
theorem mem_findSwingPoints_lows {data : List Candle} {lookback : ℕ} {sp : SwingPoint}
    (hsp : sp ∈ (findSwingPoints data lookback).lows) :
    ∃ i, lookback ≤ i ∧ i + lookback < data.length ∧
      isSwingLowAt data lookback i = true ∧
      sp = { time := (candleAt data i).time, price := (candleAt data i).low, type := .low } := by
  unfold findSwingPoints at hsp
  by_cases hlen : data.length < lookback * 2 + 1
  · simp [hlen] at hsp
  · simp only [hlen, if_false, List.mem_filterMap] at hsp
    obtain ⟨i, hi, hif⟩ := hsp
    rw [List.mem_range'] at hi
    obtain ⟨k, hk, rfl⟩ := hi
    split at hif
    · next h =>
      refine ⟨lookback + 1 * k, by omega, by omega, h, ?_⟩
      exact (Option.some.inj hif).symm
    · next h => simp at hif

/-- Unfolding of the `isHigh` inner-loop condition: a surviving index
dominates its left neighbors weakly (`≤`, ties allowed) and its right
neighbors strictly (`<`). -/
theorem isSwingHighAt_spec {data : List Candle} {lookback i : ℕ}
    (h : isSwingHighAt data lookback i = true) :
    ∀ j, 1 ≤ j → j ≤ lookback →
      (candleAt data (i - j)).high ≤ (candleAt data i).high ∧
      (candleAt data (i + j)).high < (candleAt data i).high := by
  intro j h1 h2
  unfold isSwingHighAt at h
  rw [List.all_eq_true] at h
  have hj := h (j - 1) (by rw [List.mem_range]; omega)
  simp only [decide_eq_true_eq, not_or, not_lt, not_le] at hj
  have hjj : j - 1 + 1 = j := by omega
  rw [hjj] at hj
  exact ⟨le_of_not_lt (fun hc => absurd hc (by simpa using (not_lt.2 hj.1))), hj.2⟩

/-- Unfolding of the `isLow` inner-loop condition: a surviving index is weakly
below its left neighbors (`≥` for them, ties allowed) and strictly below its
right neighbors. -/
theorem isSwingLowAt_spec {data : List Candle} {lookback i : ℕ}
    (h : isSwingLowAt data lookback i = true) :
    ∀ j, 1 ≤ j → j ≤ lookback →
      (candleAt data i).low ≤ (candleAt data (i - j)).low ∧
      (candleAt data i).low < (candleAt data (i + j)).low := by
  intro j h1 h2
  unfold isSwingLowAt at h
  rw [List.all_eq_true] at h
  have hj := h (j - 1) (by rw [List.mem_range]; omega)
  simp only [decide_eq_true_eq, not_or, not_lt, not_le] at hj
  have hjj : j - 1 + 1 = j := by omega
  rw [hjj] at hj
  exact ⟨hj.1, hj.2⟩

/-- C1 (counterexample): the claim as stated — flagged swing highs strictly
dominate all `2*lookback` neighbors, ties disqualify — is false for the
series with highs `[5, 5, 3]` and `lookback = 1`: the middle candle is
flagged as a swing high although it ties its left neighbor's high. -/
theorem c1_strict_swing_counterexample : ¬ strictSwingClaimAt c1CexData 1 := by
  intro h
  have h5 := (h.1 ⟨1, 5, SPType.high⟩ (by decide) 1 (by decide) (by decide) 1
    (by decide) (by decide)).1 (by decide)
  exact absurd h5 (by decide)

/-- C1 (amended): every point flagged as a swing high by `findSwingPoints` has
a high that is greater than *or equal to* the highs of the `lookback` candles
on its left (a tie with a left neighbor does not disqualify) and strictly
greater than the highs of the `lookback` candles on its right; symmetrically,
a flagged swing low is weakly below its left neighbors' lows and strictly
below its right neighbors' lows. -/
theorem c1_swing_neighbor_bounds (data : List Candle) (lookback : ℕ) :
    (∀ sp ∈ (findSwingPoints data lookback).highs, ∃ i,
      lookback ≤ i ∧ i + lookback < data.length ∧
      sp.time = (candleAt data i).time ∧ sp.price = (candleAt data i).high ∧
      ∀ j, 1 ≤ j → j ≤ lookback →
        (candleAt data (i - j)).high ≤ sp.price ∧
        (candleAt data (i + j)).high < sp.price) ∧
    (∀ sp ∈ (findSwingPoints data lookback).lows, ∃ i,
      lookback ≤ i ∧ i + lookback < data.length ∧
      sp.time = (candleAt data i).time ∧ sp.price = (candleAt data i).low ∧
      ∀ j, 1 ≤ j → j ≤ lookback →
        sp.price ≤ (candleAt data (i - j)).low ∧
        sp.price < (candleAt data (i + j)).low) := by
  constructor
  · intro sp hsp
    obtain ⟨i, hle, hlt, hflag, rfl⟩ := mem_findSwingPoints_highs hsp
    exact ⟨i, hle, hlt, rfl, rfl, isSwingHighAt_spec hflag⟩
  · intro sp hsp
    obtain ⟨i, hle, hlt, hflag, rfl⟩ := mem_findSwingPoints_lows hsp
    exact ⟨i, hle, hlt, rfl, rfl, isSwingLowAt_spec hflag⟩

/-- C1 (witness): the amended theorem applied at the concrete series with
highs `[5, 5, 3]` and `lookback = 1`, at the flagged swing high `(time 1,
price 5)`. -/
theorem c1_swing_neighbor_bounds_witness :
    (⟨1, 5, SPType.high⟩ : SwingPoint) ∈ (findSwingPoints c1CexData 1).highs ∧
    ∃ i, 1 ≤ i ∧ i + 1 < c1CexData.length ∧
      (⟨1, 5, SPType.high⟩ : SwingPoint).time = (candleAt c1CexData i).time ∧
      (⟨1, 5, SPType.high⟩ : SwingPoint).price = (candleAt c1CexData i).high ∧
      ∀ j, 1 ≤ j → j ≤ 1 →
        (candleAt c1CexData (i - j)).high ≤ (⟨1, 5, SPType.high⟩ : SwingPoint).price ∧
        (candleAt c1CexData (i + j)).high < (⟨1, 5, SPType.high⟩ : SwingPoint).price :=
  ⟨by decide, (c1_swing_neighbor_bounds c1CexData 1).1 ⟨1, 5, SPType.high⟩ (by decide)⟩

/-- ExecutedTrade from `types.ts`.  Within `runBacktest` the `entryTime` is
always set to the fill candle's time at creation, so it is total here;
`exitTime`/`exitPrice` are `null` (`none`) until the trade closes.  As in the
source, `pnl` temporarily stores the risked amount while the trade is open
and `equity` stores the equity at entry until the close overwrites it. -/
structure ExecutedTrade where
  signalTime : ℤ
  entryTime : ℤ
  exitTime : Option ℤ
  entryPrice : ℚ
  exitPrice : Option ℚ
  outcome : Outcome
  pnl : ℚ
  equity : ℚ
  type : Direction
  slPrice : ℚ
  tpPrice : ℚ
  returnOnEquityPercent : ℚ
  leverage : ℤ
deriving DecidableEq, Inhabited

/-- Mutable state of the candle loop in `runBacktest` (lines 537-546).  The
source keeps one `executedTrades` array and a reference `activeTrade` into
its last element; since a trade is pushed when it opens and no further push
happens while it is open, the active trade is always the most recently pushed
entry.  The model therefore splits the array into the closed prefix
`closedTrades` and the optional `activeTrade`; the source's `executedTrades`
is recovered as `closedTrades ++ activeTrade.toList` (see `BtState.trades`). -/
structure BtState where
  equity : ℚ
  peakEquity : ℚ
  maxDrawdown : ℚ
  maxDrawdownAmount : ℚ
  closedTrades : List ExecutedTrade
  activeTrade : Option ExecutedTrade
  pendingSignals : List TradeSignal
deriving DecidableEq, Inhabited

/-- The source's `executedTrades` array: closed trades in push (= open) order
followed by the still-open trade, if any. -/
def BtState.trades (st : BtState) : List ExecutedTrade :=
  st.closedTrades ++ st.activeTrade.toList

/-- Stop-loss hit test (line 553): `low <= slPrice` for a bullish trade,
`high >= slPrice` for a bearish one. -/
def hitSL (t : ExecutedTrade) (c : Candle) : Bool :=
  if t.type = .Bullish then decide (c.low ≤ t.slPrice) else decide (t.slPrice ≤ c.high)

/-- Take-profit hit test (line 554): `high >= tpPrice` for a bullish trade,
`low <= tpPrice` for a bearish one. -/
def hitTP (t : ExecutedTrade) (c : Candle) : Bool :=
  if t.type = .Bullish then decide (t.tpPrice ≤ c.high) else decide (c.low ≤ t.tpPrice)

/-- Close bookkeeping of `runBacktest` (lines 564-591): net PnL, equity,
peak-equity/drawdown tracking, and the in-place update of the trade object,
which here moves the trade into `closedTrades`. -/
def applyClose (s : Settings) (st : BtState) (c : Candle) (t : ExecutedTrade)
    (outcome : Outcome) (exitPrice : ℚ) : BtState :=
  let equityBefore := t.equity
  let amountToRisk := |t.pnl|
  let positionValue := (t.leverage : ℚ) * equityBefore
  let finalPnl := if outcome = .Win then amountToRisk * s.rrRatio else -amountToRisk
  let finalCommissionCost := positionValue * (s.commissionPercent / 100) * 2
  let netPnl := finalPnl - finalCommissionCost
  let equity := st.equity + netPnl
  let peakEquity := if equity > st.peakEquity then equity else st.peakEquity
  let drawdownPercent := if peakEquity > 0 then (peakEquity - equity) / peakEquity * 100 else 0
  let newMax := if drawdownPercent > st.maxDrawdown then (drawdownPercent, peakEquity - equity)
                else (st.maxDrawdown, st.maxDrawdownAmount)
  { st with
    equity := equity
    peakEquity := peakEquity
    maxDrawdown := newMax.1
    maxDrawdownAmount := newMax.2
    closedTrades := st.closedTrades ++ [{ t with
      outcome := outcome
      exitTime := some c.time
      exitPrice := some exitPrice
      pnl := netPnl
      equity := equity
      returnOnEquityPercent := netPnl / equityBefore * 100 }]
    activeTrade := none }

/-- Step 1 of the candle loop (lines 549-592): try to close the active trade.
The stop-loss is checked first and wins over a simultaneous take-profit hit.
The source guards the close with `if (outcome && exitPrice)`; a JavaScript
number is falsy when it is `0`, so a zero exit price skips the whole close
block and the trade stays open — modelled by the `= 0` tests. -/
def closeStep (s : Settings) (st : BtState) (c : Candle) : BtState :=
  match st.activeTrade with
  | none => st
  | some t =>
    if hitSL t c then
      if t.slPrice = 0 then st else applyClose s st c t .Loss t.slPrice
    else if hitTP t c then
      if t.tpPrice = 0 then st else applyClose s st c t .Win t.tpPrice
    else st

/-- The signal scan of step 2 of the candle loop (lines 596-646): walk the
pending signals in order; skip those whose entry time is in the future, whose
entry price is not bracketed by the candle, whose risk per unit is zero, or
whose potential profit fails the commission filter; open a trade on the first
acceptable signal, removing it from the queue (`splice`) and stopping the
scan (`break`).  Returns the opened trade and the remaining queue, or `none`
if no signal fills on this candle. -/
def scanSignals (s : Settings) (equity : ℚ) (c : Candle) :
    List TradeSignal → Option (ExecutedTrade × List TradeSignal)
  | [] => none
  | sig :: rest =>
    if c.time < sig.entryTime then
      (scanSignals s equity c rest).map fun tl => (tl.1, sig :: tl.2)
    else
      let isBullishEntry := sig.type = .Bullish ∧ c.low ≤ sig.entryPrice ∧ sig.entryPrice ≤ c.high
      let isBearishEntry := sig.type = .Bearish ∧ sig.entryPrice ≤ c.high ∧ c.low ≤ sig.entryPrice
      if isBullishEntry ∨ isBearishEntry then
        let equityBefore := equity
        let amountToRiskOriginal := equityBefore * (s.orderSizePercent / 100)
        let riskPerUnit := |sig.entryPrice - sig.stopLoss|
        if riskPerUnit ≤ 0 then
          (scanSignals s equity c rest).map fun tl => (tl.1, sig :: tl.2)
        else
          let positionSizeInUnitsOriginal := amountToRiskOriginal / riskPerUnit
          let positionValueOriginal := positionSizeInUnitsOriginal * sig.entryPrice
          if s.filterByCommission ∧
              amountToRiskOriginal * s.rrRatio ≤
                positionValueOriginal * (s.commissionPercent / 100) * 2 then
            (scanSignals s equity c rest).map fun tl => (tl.1, sig :: tl.2)
          else
            let exactLeverage := positionValueOriginal / equityBefore
            let appliedLeverage := ⌈exactLeverage⌉
            let finalPositionValue := equityBefore * (appliedLeverage : ℚ)
            let finalPositionSizeInUnits := finalPositionValue / sig.entryPrice
            let finalAmountToRisk := finalPositionSizeInUnits * riskPerUnit
            some ({ signalTime := sig.entryTime
                    entryTime := c.time
                    exitTime := none
                    entryPrice := sig.entryPrice
                    exitPrice := none
                    outcome := .Open
                    pnl := finalAmountToRisk
                    equity := equityBefore
                    type := sig.type
                    slPrice := sig.stopLoss
                    tpPrice := sig.takeProfit
                    returnOnEquityPercent := 0
                    leverage := appliedLeverage }, rest)
      else
        (scanSignals s equity c rest).map fun tl => (tl.1, sig :: tl.2)

/-- Step 2 of the candle loop (lines 595-647): open a trade from the pending
signal queue, but only when no trade is active. -/
def openStep (s : Settings) (st : BtState) (c : Candle) : BtState :=
  match st.activeTrade with
  | some _ => st
  | none =>
    match scanSignals s st.equity c st.pendingSignals with
    | none => st
    | some (t, remaining) =>
      { st with
        activeTrade := some t
        closedTrades := st.closedTrades
        pendingSignals := remaining }

/-- One iteration of the candle loop: the close check runs before the entry
check on every candle. -/
def stepCandle (s : Settings) (st : BtState) (c : Candle) : BtState :=
  openStep s (closeStep s st c) c

/-- Initial loop state of `runBacktest`: starting equity everywhere, no
trades, and the signals sorted by entry time (line 545). -/
def initState (init : ℚ) (sigs : List TradeSignal) : BtState :=
  { equity := init
    peakEquity := init
    maxDrawdown := 0
    maxDrawdownAmount := 0
    closedTrades := []
    activeTrade := none
    pendingSignals := sigs.mergeSort fun a b => decide (a.entryTime ≤ b.entryTime) }

/-- BacktestResults from `types.ts`; `profitFactor` lives in `WithTop ℚ`
because the source returns `Infinity` when there are no losing trades. -/
structure BacktestResults where
  trades : List ExecutedTrade
  maxDrawdown : ℚ
  maxDrawdownAmount : ℚ
  netProfitPercent : ℚ
  winRate : ℚ
  profitFactor : WithTop ℚ
  finalEquity : ℚ
  totalTrades : ℕ
deriving DecidableEq

/-- `runBacktest(ltfData, tradeSignals, settings, startingEquity?)` from
`smcService.ts` (lines 537-675). -/
def runBacktest (ltfData : List Candle) (tradeSignals : List TradeSignal)
    (s : Settings) (startingEquity : Option ℚ) : BacktestResults :=
  let initialCapitalForRun := startingEquity.getD s.initialCapital
  let final := ltfData.foldl (stepCandle s) (initState initialCapitalForRun tradeSignals)
  let executedTrades := final.trades
  let closedTrades := executedTrades.filter fun t => decide (t.outcome ≠ .Open)
  let totalTrades := closedTrades.length
  if totalTrades = 0 then
    { trades := executedTrades, maxDrawdown := 0, maxDrawdownAmount := 0,
      netProfitPercent := 0, winRate := 0, profitFactor := 0,
      finalEquity := final.equity, totalTrades := 0 }
  else
    let wins := (closedTrades.filter fun t => decide (t.outcome = .Win)).length
    let winRate := (wins : ℚ) / (totalTrades : ℚ) * 100
    let finalEquity := final.equity
    let netProfitPercent := (finalEquity - initialCapitalForRun) / initialCapitalForRun * 100
    let totalWinPnl := ((closedTrades.filter fun t => decide (t.outcome = .Win)).map
      ExecutedTrade.pnl).sum
    let totalLossPnl := |((closedTrades.filter fun t => decide (t.outcome = .Loss)).map
      ExecutedTrade.pnl).sum|
    let profitFactor : WithTop ℚ :=
      if totalLossPnl > 0 then ((totalWinPnl / totalLossPnl : ℚ) : WithTop ℚ) else ⊤
    { trades := executedTrades, maxDrawdown := final.maxDrawdown,
      maxDrawdownAmount := final.maxDrawdownAmount, netProfitPercent := netProfitPercent,
      winRate := winRate, profitFactor := profitFactor, finalEquity := finalEquity,
      totalTrades := totalTrades }

/-- Specification of a successful signal scan: the opened trade is `Open`,
filled at the current candle's time, stores the pre-entry equity, and its
leverage is the ceiling of the position notional over the equity at entry
(there is no minimum-one clamp in `runBacktest`). -/
theorem scanSignals_spec {s : Settings} {equity : ℚ} {c : Candle} :
    ∀ {sigs : List TradeSignal} {t : ExecutedTrade} {rest : List TradeSignal},
    scanSignals s equity c sigs = some (t, rest) →
    t.outcome = .Open ∧ t.entryTime = c.time ∧ t.equity = equity ∧
    t.leverage = ⌈equity * (s.orderSizePercent / 100) / |t.entryPrice - t.slPrice| *
      t.entryPrice / equity⌉ := by
  intro sigs
  induction sigs with
  | nil => intro t rest h; simp [scanSignals] at h
  | cons sig tail ih =>
    intro t rest h
    rw [scanSignals] at h
    dsimp only at h
    split at h
    · obtain ⟨⟨t', l'⟩, hrec, heq⟩ := Option.map_eq_some'.mp h
      injection heq with h1 h2
      subst h1
      exact ih hrec
    · split at h
      · split at h
        · obtain ⟨⟨t', l'⟩, hrec, heq⟩ := Option.map_eq_some'.mp h
          injection heq with h1 h2
          subst h1
          exact ih hrec
        · split at h
          · obtain ⟨⟨t', l'⟩, hrec, heq⟩ := Option.map_eq_some'.mp h
            injection heq with h1 h2
            subst h1
            exact ih hrec
          · have h' := Option.some.inj h
            injection h' with h1 h2
            subst h1
            exact ⟨rfl, rfl, rfl, rfl⟩
      · obtain ⟨⟨t', l'⟩, hrec, heq⟩ := Option.map_eq_some'.mp h
        injection heq with h1 h2
        subst h1
        exact ih hrec

/-- The close phase either leaves the state untouched or ends with no active
trade. -/
theorem closeStep_eq_or_inactive (s : Settings) (st : BtState) (c : Candle) :
    closeStep s st c = st ∨ (closeStep s st c).activeTrade = none := by
  unfold closeStep
  cases st.activeTrade with
  | none => exact Or.inl rfl
  | some t =>
    by_cases h1 : hitSL t c
    · by_cases h2 : t.slPrice = 0
      · simp [h1, h2]
      · simp [h1, h2, applyClose]
    · by_cases h3 : hitTP t c
      · by_cases h4 : t.tpPrice = 0
        · simp [h1, h3, h4]
        · simp [h1, h3, h4, applyClose]
      · simp [h1, h3]

/-- When a trade is still active after the close phase, the close phase was a
no-op. -/
theorem closeStep_active_eq (s : Settings) (st : BtState) (c : Candle)
    (h : (closeStep s st c).activeTrade.isSome) : closeStep s st c = st := by
  rcases closeStep_eq_or_inactive s st c with he | hn
  · exact he
  · rw [hn] at h; simp at h

/-- When a trade is active, the open phase does nothing. -/
theorem openStep_active (s : Settings) (st : BtState) (c : Candle)
    (h : st.activeTrade.isSome) : openStep s st c = st := by
  unfold openStep
  cases hA : st.activeTrade with
  | none => rw [hA] at h; simp at h
  | some t => rfl

/-- Loop invariant of `runBacktest`: the running equity is the starting
capital plus the summed net PnL of the closed trades, closed trades are never
`Open`, and the active trade (if any) is `Open`. -/
def btInvariant (init : ℚ) (st : BtState) : Prop :=
  st.equity = init + (st.closedTrades.map ExecutedTrade.pnl).sum ∧
  (∀ t ∈ st.closedTrades, t.outcome ≠ .Open) ∧
  (∀ t, st.activeTrade = some t → t.outcome = .Open)

/-- The initial state satisfies the invariant. -/
theorem btInvariant_initState (init : ℚ) (sigs : List TradeSignal) :
    btInvariant init (initState init sigs) := by
  refine ⟨by simp [initState], by simp [initState], ?_⟩
  intro t h
  simp [initState] at h

/-- `applyClose` preserves the invariant when the recorded outcome is not
`Open`. -/
theorem btInvariant_applyClose {init : ℚ} {s : Settings} {st : BtState} {c : Candle}
    {t : ExecutedTrade} {oc : Outcome} {xp : ℚ} (h : btInvariant init st)
    (hoc : oc ≠ .Open) : btInvariant init (applyClose s st c t oc xp) := by
  obtain ⟨h1, h2, h3⟩ := h
  refine ⟨?_, ?_, ?_⟩
  · simp only [applyClose, List.map_append, List.sum_append, List.map_cons, List.map_nil,
      List.sum_cons, List.sum_nil]
    rw [h1]; ring
  · intro t' ht'
    simp only [applyClose, List.mem_append, List.mem_singleton] at ht'
    rcases ht' with ht' | rfl
    · exact h2 t' ht'
    · exact hoc
  · intro t' ht'
    simp [applyClose] at ht'

/-- The close phase preserves the invariant. -/
theorem btInvariant_closeStep {init : ℚ} (s : Settings) (st : BtState) (c : Candle)
    (h : btInvariant init st) : btInvariant init (closeStep s st c) := by
  unfold closeStep
  cases st.activeTrade with
  | none => exact h
  | some t =>
    by_cases h1 : hitSL t c
    · by_cases h2 : t.slPrice = 0
      · simpa [h1, h2] using h
      · simpa [h1, h2] using btInvariant_applyClose h (by simp)
    · by_cases h3 : hitTP t c
      · by_cases h4 : t.tpPrice = 0
        · simpa [h1, h3, h4] using h
        · simpa [h1, h3, h4] using btInvariant_applyClose h (by simp)
      · simpa [h1, h3] using h

/-- The open phase preserves the invariant. -/
theorem btInvariant_openStep {init : ℚ} (s : Settings) (st : BtState) (c : Candle)
    (h : btInvariant init st) : btInvariant init (openStep s st c) := by
  obtain ⟨h1, h2, h3⟩ := h
  unfold openStep
  cases hA : st.activeTrade with
  | some t => exact ⟨h1, h2, h3⟩
  | none =>
    cases hS : scanSignals s st.equity c st.pendingSignals with
    | none => exact ⟨h1, h2, h3⟩
    | some tl =>
      obtain ⟨t, remaining⟩ := tl
      refine ⟨h1, h2, ?_⟩
      intro t' ht'
      simp only [Option.some.injEq] at ht'
      subst ht'
      exact (scanSignals_spec hS).1

/-- One candle step preserves the invariant. -/
theorem btInvariant_stepCandle {init : ℚ} (s : Settings) (st : BtState) (c : Candle)
    (h : btInvariant init st) : btInvariant init (stepCandle s st c) :=
  btInvariant_openStep s _ c (btInvariant_closeStep s st c h)

/-- The invariant holds after folding any candle list. -/
theorem btInvariant_foldl (init : ℚ) (s : Settings) :
    ∀ (candles : List Candle) (st : BtState), btInvariant init st →
      btInvariant init (candles.foldl (stepCandle s) st)
  | [], _, h => h
  | c :: rest, st, h =>
    btInvariant_foldl init s rest (stepCandle s st c) (btInvariant_stepCandle s st c h)

/-- Under the invariant, filtering the executed trades for non-`Open`
outcomes yields exactly the closed-trade prefix. -/
theorem trades_filter_closed {init : ℚ} {st : BtState} (h : btInvariant init st) :
    st.trades.filter (fun t => decide (t.outcome ≠ .Open)) = st.closedTrades := by
  obtain ⟨-, h2, h3⟩ := h
  unfold BtState.trades
  rw [List.filter_append]
  have hc : st.closedTrades.filter (fun t => decide (t.outcome ≠ .Open)) = st.closedTrades := by
    rw [List.filter_eq_self]
    intro t ht
    simpa using h2 t ht
  have ha : st.activeTrade.toList.filter (fun t => decide (t.outcome ≠ .Open)) = [] := by
    cases hA : st.activeTrade with
    | none => rfl
    | some t => simp [h3 t hA]
  rw [hc, ha, List.append_nil]

/-- The final equity and trade list of `runBacktest` are those of the folded
final state. -/
theorem runBacktest_raw (ltfData : List Candle) (sigs : List TradeSignal)
    (s : Settings) (se : Option ℚ) :
    (runBacktest ltfData sigs s se).finalEquity =
        (ltfData.foldl (stepCandle s) (initState (se.getD s.initialCapital) sigs)).equity ∧
    (runBacktest ltfData sigs s se).trades =
        (ltfData.foldl (stepCandle s) (initState (se.getD s.initialCapital) sigs)).trades := by
  constructor <;> (unfold runBacktest; dsimp only; split <;> rfl)

/-- C4: for every backtest run, the returned `finalEquity` is exactly the
starting capital (the optional `startingEquity`, defaulting to
`settings.initialCapital`) plus the sum of the net PnL recorded on the closed
(non-`Open`) trades of the returned trade list: equity changes only when a
trade closes, by exactly the PnL stored on that trade. -/
theorem c4_equity_conservation (ltfData : List Candle) (sigs : List TradeSignal)
    (s : Settings) (startingEquity : Option ℚ) :
    (runBacktest ltfData sigs s startingEquity).finalEquity =
      startingEquity.getD s.initialCapital +
      (((runBacktest ltfData sigs s startingEquity).trades.filter
          fun t => decide (t.outcome ≠ .Open)).map ExecutedTrade.pnl).sum := by
  have hinv := btInvariant_foldl (startingEquity.getD s.initialCapital) s ltfData _
    (btInvariant_initState _ sigs)
  obtain ⟨hr1, hr2⟩ := runBacktest_raw ltfData sigs s startingEquity
  rw [hr1, hr2, trades_filter_closed hinv]
  exact hinv.1

/-- C3: at every candle step of the backtest (every prefix of the candle
list), at most one trade in the accumulated trade list is `Open`; and a step
that appends a new trade (opens one) is a step whose close phase ended with
no active trade — a new trade can only be opened when no trade is open. -/
theorem c3_single_open_trade (ltfData : List Candle) (sigs : List TradeSignal)
    (s : Settings) (startingEquity : Option ℚ) (n : ℕ) (st : BtState) (c : Candle) :
    ((ltfData.take n).foldl (stepCandle s)
        (initState (startingEquity.getD s.initialCapital) sigs)).trades.countP
      (fun t => decide (t.outcome = .Open)) ≤ 1 ∧
    ((stepCandle s st c).trades.length > st.trades.length →
      (closeStep s st c).activeTrade = none) := by
  constructor
  · have hinv := btInvariant_foldl (startingEquity.getD s.initialCapital) s
      (ltfData.take n) _ (btInvariant_initState _ sigs)
    obtain ⟨-, h2, h3⟩ := hinv
    unfold BtState.trades
    rw [List.countP_append]
    have hc : (((ltfData.take n).foldl (stepCandle s)
        (initState (startingEquity.getD s.initialCapital) sigs)).closedTrades.countP
          fun t => decide (t.outcome = .Open)) = 0 := by
      rw [List.countP_eq_zero]
      intro a ha
      simpa using h2 a ha
    rw [hc]
    have ha : (((ltfData.take n).foldl (stepCandle s)
        (initState (startingEquity.getD s.initialCapital) sigs)).activeTrade.toList).countP
          (fun t => decide (t.outcome = .Open)) ≤
        (((ltfData.take n).foldl (stepCandle s)
          (initState (startingEquity.getD s.initialCapital) sigs)).activeTrade.toList).length :=
      List.countP_le_length _
    have hl : (((ltfData.take n).foldl (stepCandle s)
        (initState (startingEquity.getD s.initialCapital) sigs)).activeTrade.toList).length ≤ 1 := by
      cases ((ltfData.take n).foldl (stepCandle s)
        (initState (startingEquity.getD s.initialCapital) sigs)).activeTrade <;> simp
    omega
  · intro hgt
    cases hA : (closeStep s st c).activeTrade with
    | none => rfl
    | some t =>
      exfalso
      have heq : closeStep s st c = st := closeStep_active_eq s st c (by rw [hA]; rfl)
      rw [heq] at hA
      have hstep : stepCandle s st c = st := by
        unfold stepCandle
        rw [heq]
        exact openStep_active s st c (by rw [hA]; rfl)
      rw [hstep] at hgt
      exact lt_irrefl _ hgt

/-- C6: when a run closes zero trades, `runBacktest` returns the zeroed
result with `finalEquity` equal to the starting capital — even when a trade
was opened and is still `Open` at the end of the data — and, being a total
function, it raises no error. -/
theorem c6_zero_closed_result (ltfData : List Candle) (sigs : List TradeSignal)
    (s : Settings) (startingEquity : Option ℚ)
    (h : ((runBacktest ltfData sigs s startingEquity).trades.filter
        fun t => decide (t.outcome ≠ .Open)).length = 0) :
    runBacktest ltfData sigs s startingEquity =
      { trades := (runBacktest ltfData sigs s startingEquity).trades
        maxDrawdown := 0
        maxDrawdownAmount := 0
        netProfitPercent := 0
        winRate := 0
        profitFactor := 0
        finalEquity := startingEquity.getD s.initialCapital
        totalTrades := 0 } := by
  have hinv := btInvariant_foldl (startingEquity.getD s.initialCapital) s ltfData _
    (btInvariant_initState _ sigs)
  obtain ⟨hr1, hr2⟩ := runBacktest_raw ltfData sigs s startingEquity
  have hfilter : ((ltfData.foldl (stepCandle s)
      (initState (startingEquity.getD s.initialCapital) sigs)).trades.filter
        fun t => decide (t.outcome ≠ .Open)).length = 0 := by
    rw [← hr2]; exact h
  have hclosed : (ltfData.foldl (stepCandle s)
      (initState (startingEquity.getD s.initialCapital) sigs)).closedTrades = [] := by
    rw [trades_filter_closed hinv] at hfilter
    exact List.length_eq_zero.mp hfilter
  have hequity : (ltfData.foldl (stepCandle s)
      (initState (startingEquity.getD s.initialCapital) sigs)).equity =
      startingEquity.getD s.initialCapital := by
    rw [hinv.1, hclosed]; simp
  conv_lhs => unfold runBacktest
  dsimp only
  rw [if_pos hfilter]
  rw [hequity, ← hr2]

/-- C2 (amended): while a trade is active, the stop-loss check runs before
the take-profit check on every candle; if the stop-loss triggers and the
stop-loss price is nonzero, the trade closes as a `Loss` at the stop-loss
price even when the take-profit also triggers on the same candle.  The one
divergence from the claim as written: the source guards the close with
`if (outcome && exitPrice)`, and a JavaScript number is falsy at `0`, so when
the stop-loss price is exactly `0` the close is skipped and the trade stays
open.  A `Win` close can only happen on a candle where the stop-loss
condition does not hold. -/
theorem c2_stop_loss_priority (s : Settings) (st : BtState) (t : ExecutedTrade) (c : Candle)
    (hA : st.activeTrade = some t) :
    (hitSL t c = true → t.slPrice ≠ 0 →
      (closeStep s st c).activeTrade = none ∧
      ∃ tc, (closeStep s st c).closedTrades = st.closedTrades ++ [tc] ∧
        tc.outcome = .Loss ∧ tc.exitPrice = some t.slPrice ∧ tc.exitTime = some c.time) ∧
    (hitSL t c = true → t.slPrice = 0 → closeStep s st c = st) ∧
    (∀ tc, (closeStep s st c).closedTrades = st.closedTrades ++ [tc] → tc.outcome = .Win →
      hitSL t c = false) := by
  unfold closeStep
  simp only [hA]
  refine ⟨?_, ?_, ?_⟩
  · intro h1 h2
    rw [if_pos h1, if_neg h2]
    exact ⟨rfl, _, rfl, rfl, rfl, rfl⟩
  · intro h1 h2
    rw [if_pos h1, if_pos h2]
  · intro tc hc hw
    by_cases h1 : hitSL t c
    · exfalso
      by_cases h2 : t.slPrice = 0
      · rw [if_pos h1, if_pos h2] at hc
        have := congrArg List.length hc
        simp at this
      · rw [if_pos h1, if_neg h2] at hc
        simp only [applyClose] at hc
        have h4 := List.append_cancel_left hc
        simp only [List.cons.injEq, and_true] at h4
        rw [← h4] at hw
        simp at hw
    · simpa using h1

/-- C5 (amended): every trade opened by the backtest records the equity at
entry and a leverage equal to the ceiling of (position notional / equity at
entry); the leverage is at least 1 whenever that ratio is positive (as it is
when equity, order size percent and entry price are all positive), but the
source applies no `max(1, _)` clamp in `runBacktest`, so a zero or negative
ratio yields a leverage below 1.  The nonzero-equity hypothesis keeps the
statement inside the domain where `ℚ` division agrees with JavaScript. -/
theorem c5_leverage_ceiling (s : Settings) (equity : ℚ) (c : Candle)
    (sigs : List TradeSignal) (t : ExecutedTrade) (rest : List TradeSignal)
    (hscan : scanSignals s equity c sigs = some (t, rest)) (_hne : equity ≠ 0) :
    t.equity = equity ∧
    t.leverage = ⌈equity * (s.orderSizePercent / 100) / |t.entryPrice - t.slPrice| *
        t.entryPrice / equity⌉ ∧
    (0 < equity * (s.orderSizePercent / 100) / |t.entryPrice - t.slPrice| *
        t.entryPrice / equity →
      1 ≤ t.leverage) := by
  obtain ⟨-, -, h3, h4⟩ := scanSignals_spec hscan
  refine ⟨h3, h4, ?_⟩
  intro hpos
  rw [h4]
  have := Int.ceil_pos.mpr hpos
  omega

/-- Invariant for claim C10: every closed trade exited strictly after its
entry, and the active trade entered strictly before every candle still to be
processed. -/
def c10Inv (st : BtState) (rest : List Candle) : Prop :=
  (∀ t ∈ st.closedTrades, ∃ e, t.exitTime = some e ∧ t.entryTime < e) ∧
  (∀ t, st.activeTrade = some t → ∀ c ∈ rest, t.entryTime < c.time)

/-- One candle step preserves the C10 invariant, because the exit check runs
before the entry check: a close stamps the current candle's time, which is
strictly later than the active trade's entry, and a newly opened trade is
stamped with the current candle's time, strictly before all later candles. -/
theorem c10Inv_stepCandle (s : Settings) (st : BtState) (c : Candle) (rest : List Candle)
    (hpw : ∀ c' ∈ rest, c.time < c'.time) (h : c10Inv st (c :: rest)) :
    c10Inv (stepCandle s st c) rest := by
  obtain ⟨h1, h2⟩ := h
  have hcl : c10Inv (closeStep s st c) rest := by
    unfold closeStep
    cases hA : st.activeTrade with
    | none =>
      exact ⟨h1, fun t' ht' c' hc' => h2 t' ht' c' (List.mem_cons_of_mem _ hc')⟩
    | some t =>
      have hnoop : c10Inv st rest :=
        ⟨h1, fun t' ht' c' hc' => h2 t' ht' c' (List.mem_cons_of_mem _ hc')⟩
      have happly : ∀ oc xp, c10Inv (applyClose s st c t oc xp) rest := by
        intro oc xp
        refine ⟨?_, ?_⟩
        · intro t' ht'
          simp only [applyClose, List.mem_append, List.mem_singleton] at ht'
          rcases ht' with ht' | rfl
          · exact h1 t' ht'
          · exact ⟨c.time, rfl, h2 t hA c (List.mem_cons_self _ _)⟩
        · intro t' ht'
          simp [applyClose] at ht'
      dsimp only
      by_cases hs1 : hitSL t c
      · by_cases hs2 : t.slPrice = 0
        · rw [if_pos hs1, if_pos hs2]; exact hnoop
        · rw [if_pos hs1, if_neg hs2]; exact happly _ _
      · by_cases hs3 : hitTP t c
        · by_cases hs4 : t.tpPrice = 0
          · rw [if_neg hs1, if_pos hs3, if_pos hs4]; exact hnoop
          · rw [if_neg hs1, if_pos hs3, if_neg hs4]; exact happly _ _
        · rw [if_neg hs1, if_neg hs3]; exact hnoop
  obtain ⟨g1, g2⟩ := hcl
  unfold stepCandle openStep
  cases hA : (closeStep s st c).activeTrade with
  | some t => exact ⟨g1, g2⟩
  | none =>
    cases hS : scanSignals s (closeStep s st c).equity c (closeStep s st c).pendingSignals with
    | none => exact ⟨g1, g2⟩
    | some tl =>
      obtain ⟨t, remaining⟩ := tl
      refine ⟨g1, ?_⟩
      intro t' ht' c' hc'
      simp only [Option.some.injEq] at ht'
      subst ht'
      rw [(scanSignals_spec hS).2.1]
      exact hpw c' hc'

/-- The C10 invariant is carried through the whole candle fold. -/
theorem c10Inv_foldl (s : Settings) :
    ∀ (candles : List Candle) (st : BtState),
      candles.Pairwise (fun a b => a.time < b.time) → c10Inv st candles →
      c10Inv (candles.foldl (stepCandle s) st) []
  | [], _, _, h => h
  | c :: rest, st, hpw, h => by
    rw [List.foldl_cons]
    have hp := List.pairwise_cons.mp hpw
    exact c10Inv_foldl s rest _ hp.2 (c10Inv_stepCandle s st c rest hp.1 h)

/-- C10: a trade is never closed on the candle on which it was opened.  With
candles in strictly increasing time order (the documented input invariant),
every non-`Open` trade in the result exited at a time strictly later than its
entry time: the exit check of a candle runs before the entry check, so a
trade opened on candle `i` is first tested for stop-loss/take-profit on
candle `i+1`, even if candle `i` already reaches the stop or target. -/
theorem c10_no_same_candle_exit (ltfData : List Candle) (sigs : List TradeSignal)
    (s : Settings) (startingEquity : Option ℚ)
    (hsorted : ltfData.Pairwise fun a b => a.time < b.time) :
    ∀ t ∈ (runBacktest ltfData sigs s startingEquity).trades, t.outcome ≠ .Open →
      ∃ e, t.exitTime = some e ∧ t.entryTime < e := by
  intro t ht hno
  obtain ⟨-, hr2⟩ := runBacktest_raw ltfData sigs s startingEquity
  rw [hr2] at ht
  have hinv := btInvariant_foldl (startingEquity.getD s.initialCapital) s ltfData _
    (btInvariant_initState _ sigs)
  have hinit : c10Inv (initState (startingEquity.getD s.initialCapital) sigs) ltfData := by
    constructor
    · intro t' ht'
      simp [initState] at ht'
    · intro t' ht'
      simp [initState] at ht'
  have hc10 := c10Inv_foldl s ltfData _ hsorted hinit
  unfold BtState.trades at ht
  rcases List.mem_append.mp ht with hcl | hac
  · exact hc10.1 t hcl
  · exfalso
    have hsome : (ltfData.foldl (stepCandle s)
        (initState (startingEquity.getD s.initialCapital) sigs)).activeTrade = some t := by
      cases hA : (ltfData.foldl (stepCandle s)
          (initState (startingEquity.getD s.initialCapital) sigs)).activeTrade with
      | none => rw [hA] at hac; simp at hac
      | some t' => rw [hA] at hac; simp at hac; rw [hac]
    exact hno (hinv.2.2 t hsome)

/-- Settings used by the concrete backtest scenarios: filters off, zero
commission, 2:1 reward ratio, 1% order size. -/
def cexSettings : Settings :=
  { htfSwingLookback := 1, ltfChochLookback := 1, discountZone := 1/2,
    useFvgFilter := false, useLiquiditySweepFilter := false, initialCapital := 1000,
    orderSizePercent := 1, rrRatio := 2, commissionPercent := 0,
    filterByCommission := false, slType := .structural, fixedSlValue := 1 }

/-- Signal whose stop-loss price is exactly `0` (as the analysis itself emits
when `slType = 'fixed'` and `fixedSlValue = 100`). -/
def c2CexSignal : TradeSignal :=
  { entryTime := 0, entryPrice := 5, stopLoss := 0, takeProfit := 15, type := .Bullish }

/-- Candle on which the C2 counterexample trade is opened. -/
def c2CexCandleOpen : Candle := { time := 0, opn := 5, high := 6, low := 4, close := 5 }

/-- Candle whose range triggers both the stop-loss (`low ≤ 0`) and the
take-profit (`high ≥ 15`) of the C2 counterexample trade. -/
def c2CexCandleBoth : Candle := { time := 1, opn := 5, high := 20, low := 0, close := 10 }

/-- C2 (counterexample): a backtest run in which the second candle triggers
both the stop-loss and the take-profit of the active trade, yet the trade is
not closed as a `Loss` — it stays `Open`, because the stop-loss price is `0`
and `if (outcome && exitPrice)` treats the zero exit price as falsy. -/
theorem c2_counterexample :
    (runBacktest [c2CexCandleOpen, c2CexCandleBoth] [c2CexSignal]
        cexSettings none).trades.map ExecutedTrade.outcome = [Outcome.Open] ∧
    c2CexCandleBoth.low ≤ c2CexSignal.stopLoss ∧
    c2CexSignal.takeProfit ≤ c2CexCandleBoth.high := by
  refine ⟨?_, by norm_num [c2CexCandleBoth, c2CexSignal], by norm_num [c2CexCandleBoth, c2CexSignal]⟩
  simp only [runBacktest, initState, List.mergeSort_singleton, List.foldl_cons, List.foldl_nil,
    stepCandle, closeStep, openStep, scanSignals, hitSL, hitTP, BtState.trades,
    cexSettings, c2CexSignal, c2CexCandleOpen, c2CexCandleBoth]
  norm_num

/-- Open trade used by the close-phase witnesses: bullish, entry 5, stop 4,
target 7, opened with equity 1000. -/
def c2WitnessTrade : ExecutedTrade :=
  { signalTime := 0, entryTime := 0, exitTime := none, entryPrice := 5, exitPrice := none,
    outcome := .Open, pnl := 10, equity := 1000, type := .Bullish, slPrice := 4, tpPrice := 7,
    returnOnEquityPercent := 0, leverage := 1 }

/-- Backtest state with `c2WitnessTrade` active. -/
def c2WitnessState : BtState :=
  { equity := 1000, peakEquity := 1000, maxDrawdown := 0, maxDrawdownAmount := 0,
    closedTrades := [], activeTrade := some c2WitnessTrade, pendingSignals := [] }

/-- Candle hitting both the stop (`low 3 ≤ 4`) and the target (`high 8 ≥ 7`)
of `c2WitnessTrade`. -/
def c2WitnessCandle : Candle := { time := 1, opn := 5, high := 8, low := 3, close := 6 }

/-- C2 (witness): the amended stop-loss-priority theorem applied to a
concrete active trade and a candle that hits both stop and target, with the
stop-loss price nonzero: the trade closes as a `Loss` at the stop price. -/
theorem c2_stop_loss_priority_witness :
    hitSL c2WitnessTrade c2WitnessCandle = true ∧ c2WitnessTrade.slPrice ≠ 0 ∧
    ((closeStep cexSettings c2WitnessState c2WitnessCandle).activeTrade = none ∧
      ∃ tc, (closeStep cexSettings c2WitnessState c2WitnessCandle).closedTrades =
          c2WitnessState.closedTrades ++ [tc] ∧
        tc.outcome = .Loss ∧ tc.exitPrice = some c2WitnessTrade.slPrice ∧
        tc.exitTime = some c2WitnessCandle.time) :=
  ⟨by decide, by decide,
    (c2_stop_loss_priority cexSettings c2WitnessState c2WitnessTrade c2WitnessCandle rfl).1
      (by decide) (by decide)⟩

/-- Bullish signal with entry 10, stop 5, target 20. -/
def c5CexSignal : TradeSignal :=
  { entryTime := 0, entryPrice := 10, stopLoss := 5, takeProfit := 20, type := .Bullish }

/-- Candle bracketing the entry price 10. -/
def c5CexCandle : Candle := { time := 0, opn := 10, high := 11, low := 9, close := 10 }

/-- Settings with `orderSizePercent = 0` — a configuration on which the
claimed "minimum 1" leverage fails. -/
def c5CexSettings : Settings := { cexSettings with orderSizePercent := 0 }

/-- C5 (counterexample): with `orderSizePercent = 0` the backtest opens a
trade whose recorded leverage is `ceil(0) = 0 < 1` — `runBacktest` has no
`max(1, _)` clamp (unlike the order-execution helpers). -/
theorem c5_counterexample :
    (runBacktest [c5CexCandle] [c5CexSignal] c5CexSettings none).trades.map
      ExecutedTrade.leverage = [0] := by
  simp only [runBacktest, initState, List.mergeSort_singleton, List.foldl_cons, List.foldl_nil,
    stepCandle, closeStep, openStep, scanSignals, hitSL, hitTP, BtState.trades,
    c5CexSettings, cexSettings, c5CexSignal, c5CexCandle]
  norm_num

/-- The trade opened by `scanSignals` from `c5CexSignal` at `c5CexCandle`
with equity 1000 under `cexSettings` (1% order size): notional 20, exact
leverage 1/50, applied leverage `⌈1/50⌉ = 1`, re-leveraged risked amount
500. -/
def c5WitnessTrade : ExecutedTrade :=
  { signalTime := 0, entryTime := 0, exitTime := none, entryPrice := 10, exitPrice := none,
    outcome := .Open, pnl := 500, equity := 1000, type := .Bullish, slPrice := 5, tpPrice := 20,
    returnOnEquityPercent := 0, leverage := 1 }

/-- C5 (witness): the amended leverage theorem applied to a concrete opened
trade with positive equity, order size and entry price. -/
theorem c5_leverage_ceiling_witness :
    c5WitnessTrade.equity = 1000 ∧
    c5WitnessTrade.leverage = ⌈(1000 : ℚ) * (cexSettings.orderSizePercent / 100) /
        |c5WitnessTrade.entryPrice - c5WitnessTrade.slPrice| * c5WitnessTrade.entryPrice / 1000⌉ ∧
    (0 < (1000 : ℚ) * (cexSettings.orderSizePercent / 100) /
        |c5WitnessTrade.entryPrice - c5WitnessTrade.slPrice| * c5WitnessTrade.entryPrice / 1000 →
      1 ≤ c5WitnessTrade.leverage) :=
  c5_leverage_ceiling cexSettings 1000 c5CexCandle [c5CexSignal] c5WitnessTrade []
    (by
      simp only [scanSignals, cexSettings, c5CexSignal, c5CexCandle, c5WitnessTrade]
      have hceil : (⌈(1 / 50 : ℚ)⌉ : ℤ) = 1 := by
        rw [Int.ceil_eq_iff]
        norm_num
      norm_num [hceil])
    (by norm_num)

/-- C6 (witness): a run whose only trade is opened on the single candle and
never closed: zero closed trades, and the returned result is the zeroed
record with `finalEquity` equal to the starting capital. -/
theorem c6_zero_closed_result_witness :
    ((runBacktest [c5CexCandle] [c5CexSignal] cexSettings none).trades.filter
        fun t => decide (t.outcome ≠ .Open)).length = 0 ∧
    runBacktest [c5CexCandle] [c5CexSignal] cexSettings none =
      { trades := (runBacktest [c5CexCandle] [c5CexSignal] cexSettings none).trades
        maxDrawdown := 0
        maxDrawdownAmount := 0
        netProfitPercent := 0
        winRate := 0
        profitFactor := 0
        finalEquity := (none : Option ℚ).getD cexSettings.initialCapital
        totalTrades := 0 } :=
  ⟨by
    simp only [runBacktest, initState, List.mergeSort_singleton, List.foldl_cons,
      List.foldl_nil, stepCandle, closeStep, openStep, scanSignals, hitSL, hitTP,
      BtState.trades, cexSettings, c5CexSignal, c5CexCandle]
    norm_num,
   c6_zero_closed_result [c5CexCandle] [c5CexSignal] cexSettings none (by
    simp only [runBacktest, initState, List.mergeSort_singleton, List.foldl_cons,
      List.foldl_nil, stepCandle, closeStep, openStep, scanSignals, hitSL, hitTP,
      BtState.trades, cexSettings, c5CexSignal, c5CexCandle]
    norm_num)⟩

/-- C3 (witness): the single-open-trade theorem applied to a concrete
two-candle run and a concrete step state. -/
theorem c3_single_open_trade_witness :
    ((([c2CexCandleOpen, c2CexCandleBoth].take 2).foldl (stepCandle cexSettings)
        (initState ((none : Option ℚ).getD cexSettings.initialCapital) [c2CexSignal])).trades.countP
      (fun t => decide (t.outcome = .Open)) ≤ 1) ∧
    ((stepCandle cexSettings c2WitnessState c2WitnessCandle).trades.length >
        c2WitnessState.trades.length →
      (closeStep cexSettings c2WitnessState c2WitnessCandle).activeTrade = none) :=
  c3_single_open_trade [c2CexCandleOpen, c2CexCandleBoth] [c2CexSignal] cexSettings none 2
    c2WitnessState c2WitnessCandle

/-- Candle on which the C10 witness trade is opened. -/
def c10Candle0 : Candle := { time := 0, opn := 5, high := 6, low := 5, close := 5 }

/-- Candle on which the C10 witness trade hits its stop-loss. -/
def c10Candle1 : Candle := { time := 1, opn := 5, high := 5, low := 3, close := 4 }

/-- Bullish signal with entry 5, stop 4, target 7. -/
def c10Signal : TradeSignal :=
  { entryTime := 0, entryPrice := 5, stopLoss := 4, takeProfit := 7, type := .Bullish }

/-- The closed trade produced by the C10 witness run: opened on candle 0,
stopped out on candle 1 (risked amount 200 at leverage 1, zero commission). -/
def c10ClosedTrade : ExecutedTrade :=
  { signalTime := 0, entryTime := 0, exitTime := some 1, entryPrice := 5, exitPrice := some 4,
    outcome := .Loss, pnl := -200, equity := 800, type := .Bullish, slPrice := 4, tpPrice := 7,
    returnOnEquityPercent := -20, leverage := 1 }

/-- The open trade of the C10 witness run after candle 0. -/
def c10OpenTrade : ExecutedTrade :=
  { signalTime := 0, entryTime := 0, exitTime := none, entryPrice := 5, exitPrice := none,
    outcome := .Open, pnl := 200, equity := 1000, type := .Bullish, slPrice := 4, tpPrice := 7,
    returnOnEquityPercent := 0, leverage := 1 }

/-- The backtest state of the C10 witness run after candle 0. -/
def c10MidState : BtState :=
  { equity := 1000, peakEquity := 1000, maxDrawdown := 0, maxDrawdownAmount := 0,
    closedTrades := [], activeTrade := some c10OpenTrade, pendingSignals := [] }

/-- The backtest state of the C10 witness run after candle 1. -/
def c10EndState : BtState :=
  { equity := 800, peakEquity := 1000, maxDrawdown := 20, maxDrawdownAmount := 200,
    closedTrades := [c10ClosedTrade], activeTrade := none, pendingSignals := [] }

/-- C10 (witness): the no-same-candle-exit theorem applied to a concrete
strictly time-ordered two-candle run and its closed trade: the exit (time 1)
is strictly after the entry (time 0). -/
theorem c10_no_same_candle_exit_witness :
    ∃ e, c10ClosedTrade.exitTime = some e ∧ c10ClosedTrade.entryTime < e :=
  c10_no_same_candle_exit [c10Candle0, c10Candle1] [c10Signal] cexSettings none (by decide)
    c10ClosedTrade
    (by
      rw [(runBacktest_raw [c10Candle0, c10Candle1] [c10Signal] cexSettings none).2]
      have hceil : (⌈(1 / 20 : ℚ)⌉ : ℤ) = 1 := by
        rw [Int.ceil_eq_iff]
        norm_num
      have h1 : stepCandle cexSettings
          (initState ((none : Option ℚ).getD cexSettings.initialCapital) [c10Signal])
          c10Candle0 = c10MidState := by
        simp only [initState, List.mergeSort_singleton, stepCandle, closeStep, openStep,
          scanSignals, hitSL, hitTP, cexSettings, c10Signal, c10Candle0, c10MidState,
          c10OpenTrade]
        norm_num [hceil]
      have h2 : stepCandle cexSettings c10MidState c10Candle1 = c10EndState := by
        have hlw := eq_false (show Outcome.Loss ≠ Outcome.Win by decide)
        simp only [stepCandle, closeStep, openStep, scanSignals, hitSL, hitTP, applyClose,
          cexSettings, c10Candle1, c10ClosedTrade, c10MidState, c10EndState, c10OpenTrade,
          hlw, ite_false]
        norm_num
      rw [List.foldl_cons, h1, List.foldl_cons, h2, List.foldl_nil]
      simp [BtState.trades, c10EndState])
    (by decide)

/-- Ascending-by-time comparator for swing points; JavaScript
`sort((a, b) => a.time - b.time)` is stable, as is `mergeSort`. -/
def spTimeLe (a b : SwingPoint) : Bool := decide (a.time ≤ b.time)

/-- Ascending-by-price comparator (used to pick the lowest impulse low;
`sort((a, b) => a.price - b.price)[0]`). -/
def spPriceLe (a b : SwingPoint) : Bool := decide (a.price ≤ b.price)

/-- Descending-by-price comparator (used to pick the highest impulse high;
`sort((a, b) => b.price - a.price)[0]`). -/
def spPriceGe (a b : SwingPoint) : Bool := decide (b.price ≤ a.price)

/-- Consecutive pairs `(l[i-1], l[i])` for `i = 1 .. length-1`. -/
def consecutivePairs {α : Type} (l : List α) : List (α × α) := l.zip l.tail

/-- The liquidity-sweep filter failure test of the bullish branch (lines
345-350): the leg is discarded when there is no prior HTF swing low before
the impulse low, or the impulse low did not go strictly below it. -/
def sweepFailBull (htfSwingLows : List SwingPoint) (impulseLow : SwingPoint) : Bool :=
  match (htfSwingLows.filter fun l => decide (l.time < impulseLow.time)).getLast? with
  | none => true
  | some priorLow => decide (priorLow.price ≤ impulseLow.price)

/-- The liquidity-sweep filter failure test of the bearish branch (lines
393-398). -/
def sweepFailBear (htfSwingHighs : List SwingPoint) (impulseHigh : SwingPoint) : Bool :=
  match (htfSwingHighs.filter fun h => decide (h.time < impulseHigh.time)).getLast? with
  | none => true
  | some priorHigh => decide (impulseHigh.price ≤ priorHigh.price)

/-- Candidate POIs produced by one bullish BOS pair (lines 341-377): lowest
swing low strictly between the two highs, optional sweep filter, discount
level, bearish MTF candles fully below it inside the leg (walked in reverse),
optional FVG filter via the candle two places after the order block. -/
def bullishPoisFor (s : Settings) (mtf : List Candle) (htfSwingLows : List SwingPoint)
    (prevHigh currentHigh : SwingPoint) : List POI :=
  match ((htfSwingLows.filter fun l =>
      decide (prevHigh.time < l.time ∧ l.time < currentHigh.time)).mergeSort spPriceLe).head? with
  | none => []
  | some impulseLow =>
    if s.useLiquiditySweepFilter && sweepFailBull htfSwingLows impulseLow then []
    else
      let discountLevel := impulseLow.price + (currentHigh.price - impulseLow.price) * s.discountZone
      let mtfCandlesInLeg := mtf.filter fun cc =>
        decide (impulseLow.time ≤ cc.time ∧ cc.time ≤ currentHigh.time)
      mtfCandlesInLeg.reverse.filterMap fun ob =>
        if ob.close < ob.opn ∧ ob.high < discountLevel then
          if s.useFvgFilter then
            match mtf.findIdx? fun cc => decide (cc.time = ob.time) with
            | none => none
            | some idx =>
              if mtf.length ≤ idx + 2 then none
              else if (candleAt mtf (idx + 2)).low ≤ ob.high then none
              else some { startTime := ob.time, endTime := currentHigh.time,
                          top := ob.high, bottom := ob.low, direction := .Bullish }
          else some { startTime := ob.time, endTime := currentHigh.time,
                      top := ob.high, bottom := ob.low, direction := .Bullish }
        else none

/-- Candidate POIs produced by one bearish BOS pair (lines 389-423), the
mirror image: highest swing high between the lows, premium level, bullish MTF
candles fully above it, inverse FVG check. -/
def bearishPoisFor (s : Settings) (mtf : List Candle) (htfSwingHighs : List SwingPoint)
    (prevLow currentLow : SwingPoint) : List POI :=
  match ((htfSwingHighs.filter fun h =>
      decide (prevLow.time < h.time ∧ h.time < currentLow.time)).mergeSort spPriceGe).head? with
  | none => []
  | some impulseHigh =>
    if s.useLiquiditySweepFilter && sweepFailBear htfSwingHighs impulseHigh then []
    else
      let premiumLevel := impulseHigh.price - (impulseHigh.price - currentLow.price) * s.discountZone
      let mtfCandlesInLeg := mtf.filter fun cc =>
        decide (impulseHigh.time ≤ cc.time ∧ cc.time ≤ currentLow.time)
      mtfCandlesInLeg.reverse.filterMap fun ob =>
        if ob.opn < ob.close ∧ premiumLevel < ob.low then
          if s.useFvgFilter then
            match mtf.findIdx? fun cc => decide (cc.time = ob.time) with
            | none => none
            | some idx =>
              if mtf.length ≤ idx + 2 then none
              else if ob.low ≤ (candleAt mtf (idx + 2)).high then none
              else some { startTime := ob.time, endTime := currentLow.time,
                          top := ob.high, bottom := ob.low, direction := .Bearish }
          else some { startTime := ob.time, endTime := currentLow.time,
                      top := ob.high, bottom := ob.low, direction := .Bearish }
        else none

/-- Key equality used by the POI dedup (line 430): same startTime, top and
bottom. -/
def poiKeyEq (a b : POI) : Bool :=
  decide (a.startTime = b.startTime) && decide (a.top = b.top) && decide (a.bottom = b.bottom)

/-- First-occurrence deduplication by `poiKeyEq`, as performed by
`filter((poi, index, self) => index === self.findIndex(...))`. -/
def dedupPois (seen : List POI) : List POI → List POI
  | [] => []
  | p :: rest =>
    if seen.any fun q => poiKeyEq q p then dedupPois seen rest
    else p :: dedupPois (seen ++ [p]) rest

/-- State of the LTF entry-tracking walk (lines 437-438): the monitored POI
(if any), the candle buffer since entry (`ltfDataForChoch`), the remaining
active POIs, and the accumulated trades and drawings. -/
structure TrackState where
  monitoredPoi : Option POI
  ltfDataForChoch : List Candle
  activePois : List POI
  trades : List TradeSignal
  drawings : List Drawing
deriving DecidableEq

/-- POI touch test (lines 515-518): the candle's time has reached the POI's
window and the candle range overlaps the POI zone. -/
def poiEntered (poi : POI) (c : Candle) : Bool :=
  decide (poi.startTime ≤ c.time) &&
  ((decide (poi.direction = .Bullish) && decide (c.low ≤ poi.top) && decide (poi.bottom ≤ c.high)) ||
   (decide (poi.direction = .Bearish) && decide (poi.bottom ≤ c.high) && decide (c.low ≤ poi.top)))

/-- One iteration of the LTF loop of `analyzeSMC` (lines 440-528).  While a
POI is monitored: invalidate on a trade through the far edge, otherwise grow
the buffer, and once the buffer holds `2*ltfChochLookback+1` candles look for
a CHoCH, entry order block and signal; afterwards return to Idle.  While
idle: monitor the first active POI touched by this candle, consuming it
(removal by structural inequality is exact because deduplication left the
key of every active POI unique). -/
def trackStep (s : Settings) (st : TrackState) (c : Candle) : TrackState :=
  match st.monitoredPoi with
  | some poi =>
    if (poi.direction = .Bullish ∧ c.low < poi.bottom) ∨
       (poi.direction = .Bearish ∧ poi.top < c.high) then
      { st with monitoredPoi := none, ltfDataForChoch := [] }
    else
      let buf := st.ltfDataForChoch ++ [c]
      if buf.length < s.ltfChochLookback * 2 + 1 then { st with ltfDataForChoch := buf }
      else
        let ltfLocalSwings := findSwingPoints buf s.ltfChochLookback
        if poi.direction = .Bullish then
          match ltfLocalSwings.highs.getLast? with
          | none => { st with ltfDataForChoch := buf }
          | some lastLtfHigh =>
            if lastLtfHigh.price < c.high then
              let choch : CHoCH := { time := c.time, price := lastLtfHigh.price }
              let drawings := st.drawings ++ [.chochD choch]
              match (ltfLocalSwings.lows.filter fun l =>
                  decide (l.time < choch.time)).getLast? with
              | none =>
                { st with monitoredPoi := none, ltfDataForChoch := [], drawings := drawings }
              | some chochLowPoint =>
                let entryLegCandles := st.ltfDataForChoch ++ [c]
                let entryLeg := entryLegCandles.filter fun cc =>
                  decide (chochLowPoint.time ≤ cc.time ∧ cc.time ≤ choch.time)
                match entryLeg.reverse.find? fun cc => decide (cc.close < cc.opn) with
                | none =>
                  { st with monitoredPoi := none, ltfDataForChoch := [], drawings := drawings }
                | some entryOB =>
                  let entryPrice := entryOB.high
                  let stopLoss := if s.slType = .structural then chochLowPoint.price
                                  else entryPrice * (1 - s.fixedSlValue / 100)
                  let risk := entryPrice - stopLoss
                  if 0 < risk then
                    let takeProfit := entryPrice + risk * s.rrRatio
                    let trades :=
                      if st.trades.any fun t => decide (t.entryTime = entryOB.time) then st.trades
                      else st.trades ++
                        [{ entryTime := entryOB.time, entryPrice := entryPrice,
                           stopLoss := stopLoss, takeProfit := takeProfit, type := .Bullish }]
                    { st with
                        monitoredPoi := none
                        ltfDataForChoch := []
                        drawings := drawings
                        trades := trades }
                  else
                    { st with monitoredPoi := none, ltfDataForChoch := [], drawings := drawings }
            else { st with ltfDataForChoch := buf }
        else
          match ltfLocalSwings.lows.getLast? with
          | none => { st with ltfDataForChoch := buf }
          | some lastLtfLow =>
            if c.low < lastLtfLow.price then
              let choch : CHoCH := { time := c.time, price := lastLtfLow.price }
              let drawings := st.drawings ++ [.chochD choch]
              match (ltfLocalSwings.highs.filter fun h =>
                  decide (h.time < choch.time)).getLast? with
              | none =>
                { st with monitoredPoi := none, ltfDataForChoch := [], drawings := drawings }
              | some chochHighPoint =>
                let entryLegCandles := st.ltfDataForChoch ++ [c]
                let entryLeg := entryLegCandles.filter fun cc =>
                  decide (chochHighPoint.time ≤ cc.time ∧ cc.time ≤ choch.time)
                match entryLeg.reverse.find? fun cc => decide (cc.opn < cc.close) with
                | none =>
                  { st with monitoredPoi := none, ltfDataForChoch := [], drawings := drawings }
                | some entryOB =>
                  let entryPrice := entryOB.low
                  let stopLoss := if s.slType = .structural then chochHighPoint.price
                                  else entryPrice * (1 + s.fixedSlValue / 100)
                  let risk := stopLoss - entryPrice
                  if 0 < risk then
                    let takeProfit := entryPrice - risk * s.rrRatio
                    let trades :=
                      if st.trades.any fun t => decide (t.entryTime = entryOB.time) then st.trades
                      else st.trades ++
                        [{ entryTime := entryOB.time, entryPrice := entryPrice,
                           stopLoss := stopLoss, takeProfit := takeProfit, type := .Bearish }]
                    { st with
                        monitoredPoi := none
                        ltfDataForChoch := []
                        drawings := drawings
                        trades := trades }
                  else
                    { st with monitoredPoi := none, ltfDataForChoch := [], drawings := drawings }
            else { st with ltfDataForChoch := buf }
  | none =>
    match st.activePois.find? fun poi => poiEntered poi c with
    | none => st
    | some poi =>
      { st with
          monitoredPoi := some poi
          ltfDataForChoch := [c]
          activePois := st.activePois.filter fun p => decide (p ≠ poi) }

/-- Ascending-by-startTime comparator for POIs. -/
def poiStartLe (a b : POI) : Bool := decide (a.startTime ≤ b.startTime)

/-- Ascending-by-entryTime comparator for trade signals. -/
def signalTimeLe (a b : TradeSignal) : Bool := decide (a.entryTime ≤ b.entryTime)

/-- `analyzeSMC(chartData, settings)` from `smcService.ts` (lines 317-532):
guard on minimal series lengths, HTF swing detection, bullish then bearish
structure analysis over consecutive swing pairs (collecting BOS drawings and
potential POIs), dedup/sort of POIs, POI drawings clipped to the last LTF
candle's time, the LTF entry-tracking walk, and the final sort of the emitted
signals by entry time.  In the source the two in-place `sort` calls alias
`htfSwings.highs`/`.lows`, so all later reads see the sorted lists; here the
sorted lists are passed explicitly. -/
def analyzeSMC (chartData : ChartData) (s : Settings) : SMCAnalysisResult :=
  if chartData.htf.length < s.htfSwingLookback * 2 + 1 ∨ chartData.mtf.length < 10 ∨
      chartData.ltf.length < 10 then
    { trades := [], drawings := [] }
  else
    let htfSwings := findSwingPoints chartData.htf s.htfSwingLookback
    let htfSwingHighs := htfSwings.highs.mergeSort spTimeLe
    let htfSwingLows := htfSwings.lows.mergeSort spTimeLe
    let bullishPairs := (consecutivePairs htfSwingHighs).filter fun pc =>
      decide (pc.1.price < pc.2.price)
    let bearishPairs := (consecutivePairs htfSwingLows).filter fun pc =>
      decide (pc.2.price < pc.1.price)
    let bosDrawings :=
      (bullishPairs.map fun pc => Drawing.bosD { time := pc.2.time, price := pc.1.price }) ++
      (bearishPairs.map fun pc => Drawing.bosD { time := pc.2.time, price := pc.1.price })
    let potentialPois :=
      (bullishPairs.flatMap fun pc => bullishPoisFor s chartData.mtf htfSwingLows pc.1 pc.2) ++
      (bearishPairs.flatMap fun pc => bearishPoisFor s chartData.mtf htfSwingHighs pc.1 pc.2)
    let activePois := dedupPois [] (potentialPois.mergeSort poiStartLe)
    let poiDrawings := activePois.map fun p =>
      Drawing.poiD { p with endTime := (candleAt chartData.ltf (chartData.ltf.length - 1)).time }
    let initTrack : TrackState :=
      { monitoredPoi := none, ltfDataForChoch := [], activePois := activePois,
        trades := [], drawings := bosDrawings ++ poiDrawings }
    let finalTrack := chartData.ltf.foldl (trackStep s) initTrack
    { trades := finalTrack.trades.mergeSort signalTimeLe
      drawings := finalTrack.drawings }

/-- C7: on insufficient input data the analysis returns empty results and,
being total functions, never throws: `findSwingPoints` on a series shorter
than `2*lookback+1` candles returns two empty lists, and `analyzeSMC` below
its minimum windows (HTF shorter than `2*htfSwingLookback+1`, or MTF or LTF
shorter than 10) returns an empty signal list and an empty drawing list. -/
theorem c7_insufficient_data (data : List Candle) (lookback : ℕ) (cd : ChartData)
    (s : Settings) :
    (data.length < 2 * lookback + 1 →
      findSwingPoints data lookback = { highs := [], lows := [] }) ∧
    (cd.htf.length < s.htfSwingLookback * 2 + 1 ∨ cd.mtf.length < 10 ∨ cd.ltf.length < 10 →
      analyzeSMC cd s = { trades := [], drawings := [] }) := by
  constructor
  · intro h
    unfold findSwingPoints
    rw [if_pos (by omega)]
  · intro h
    unfold analyzeSMC
    rw [if_pos h]

/-- C7 (witness): the insufficient-data theorem applied to the empty series
and empty chart data. -/
theorem c7_insufficient_data_witness :
    ([] : List Candle).length < 2 * 1 + 1 ∧
    findSwingPoints [] 1 = { highs := [], lows := [] } ∧
    analyzeSMC { htf := [], mtf := [], ltf := [] } cexSettings =
      { trades := [], drawings := [] } :=
  ⟨by decide,
   (c7_insufficient_data [] 1 { htf := [], mtf := [], ltf := [] } cexSettings).1 (by decide),
   (c7_insufficient_data [] 1 { htf := [], mtf := [], ltf := [] } cexSettings).2 (by
      refine Or.inl ?_
      decide)⟩

/-- Optimizer target metric: `targetMetric : keyof BacktestResults`
restricted to the numeric fields (the `trades` array is not a numeric
metric; the UI offers only these seven). -/
inductive TargetMetric
  | maxDrawdown
  | maxDrawdownAmount
  | netProfitPercent
  | winRate
  | profitFactor
  | finalEquity
  | totalTrades
deriving DecidableEq, Inhabited

/-- Sweep range `{enabled, start, end, step}` for a natural-valued parameter
(the two lookbacks); `stop` embeds `end`, a Lean keyword.  The source's
`for (v = start; v <= end; v += step)` loop does not terminate for
`step ≤ 0`; the model returns the empty range there, and the optimizer
theorems carry a positive-step hypothesis to stay on the faithful domain. -/
structure NatParam where
  enabled : Bool
  start : ℕ
  stop : ℕ
  step : ℕ
deriving DecidableEq, Inhabited

/-- Sweep range for a rational-valued parameter (discountZone, rrRatio). -/
structure RatParam where
  enabled : Bool
  start : ℚ
  stop : ℚ
  step : ℚ
deriving DecidableEq, Inhabited

/-- Expansion of a natural sweep range: `start, start+step, …` while
`≤ stop`, i.e. `(stop-start)/step + 1` values. -/
def NatParam.values (p : NatParam) : List ℕ :=
  if p.step = 0 then []
  else if p.start ≤ p.stop then
    (List.range ((p.stop - p.start) / p.step + 1)).map fun k => p.start + k * p.step
  else []

/-- Expansion of a rational sweep range: `start + k*step` for
`0 ≤ k ≤ ⌊(stop-start)/step⌋`. -/
def RatParam.values (p : RatParam) : List ℚ :=
  if p.step ≤ 0 then []
  else if p.start ≤ p.stop then
    (List.range ((⌊(p.stop - p.start) / p.step⌋).toNat + 1)).map fun k => p.start + k * p.step
  else []

/-- OptimizerSettings from `types.ts`: the four sweepable parameters and the
target metric. -/
structure OptimizerSettings where
  htfSwingLookback : NatParam
  ltfChochLookback : NatParam
  discountZone : RatParam
  rrRatio : RatParam
  targetMetric : TargetMetric
deriving DecidableEq, Inhabited

/-- A combination, i.e. the `Partial<Settings>` override object built by
`generateCombinations`: a field is `none` when the parameter was disabled
(the key absent from the object). -/
structure Overrides where
  htfSwingLookback : Option ℕ
  ltfChochLookback : Option ℕ
  discountZone : Option ℚ
  rrRatio : Option ℚ
deriving DecidableEq, Inhabited

/-- The empty combination `{}`. -/
def emptyOverrides : Overrides :=
  { htfSwingLookback := none, ltfChochLookback := none, discountZone := none, rrRatio := none }

/-- Contribution of a natural parameter to the product: its values when
enabled, the single absent override when disabled. -/
def optNat (p : NatParam) : List (Option ℕ) :=
  if p.enabled then p.values.map some else [none]

/-- Contribution of a rational parameter to the product. -/
def optRat (p : RatParam) : List (Option ℚ) :=
  if p.enabled then p.values.map some else [none]

/-- `generateCombinations` (lines 680-714): full Cartesian product of the
enabled sweep ranges in object-key order (htfSwingLookback, ltfChochLookback,
discountZone, rrRatio), the first key outermost; when no parameter is
enabled the source returns the single empty combination `[{}]`.  An enabled
parameter with an empty range yields no combinations at all. -/
def generateCombinations (o : OptimizerSettings) : List Overrides :=
  if ¬ (o.htfSwingLookback.enabled ∨ o.ltfChochLookback.enabled ∨
        o.discountZone.enabled ∨ o.rrRatio.enabled) then [emptyOverrides]
  else
    (optNat o.htfSwingLookback).flatMap fun a =>
      (optNat o.ltfChochLookback).flatMap fun b =>
        (optRat o.discountZone).flatMap fun z =>
          (optRat o.rrRatio).map fun d =>
            { htfSwingLookback := a, ltfChochLookback := b, discountZone := z, rrRatio := d }

/-- `{...baseSettings, ...params}`: apply the overrides of a combination. -/
def applyOverrides (s : Settings) (o : Overrides) : Settings :=
  { s with
      htfSwingLookback := o.htfSwingLookback.getD s.htfSwingLookback
      ltfChochLookback := o.ltfChochLookback.getD s.ltfChochLookback
      discountZone := o.discountZone.getD s.discountZone
      rrRatio := o.rrRatio.getD s.rrRatio }

/-- OptimizationResultRow `{id, params, results}` from `types.ts`. -/
structure OptimizationResultRow where
  id : ℕ
  params : Overrides
  results : BacktestResults
deriving DecidableEq

/-- OptimizationResults `{runs, bestRun}` from `types.ts`. -/
structure OptimizationResults where
  runs : List OptimizationResultRow
  bestRun : Option OptimizationResultRow
deriving DecidableEq

/-- Value of the target metric of a run, in `WithTop ℚ` (`⊤` is the
`Infinity` profit factor of a run without losses).  The source comparator
computes `valA - valB`; with the ECMAScript rule that a `NaN` comparator
result counts as `+0`, two infinite profit factors compare equal, so the
comparator orders values exactly like the linear order of `WithTop ℚ`. -/
def metricValue (m : TargetMetric) (r : BacktestResults) : WithTop ℚ :=
  match m with
  | .maxDrawdown => (r.maxDrawdown : ℚ)
  | .maxDrawdownAmount => (r.maxDrawdownAmount : ℚ)
  | .netProfitPercent => (r.netProfitPercent : ℚ)
  | .winRate => (r.winRate : ℚ)
  | .profitFactor => r.profitFactor
  | .finalEquity => (r.finalEquity : ℚ)
  | .totalTrades => ((r.totalTrades : ℚ) : WithTop ℚ)

/-- Sort comparator of `runOptimizer` (lines 741-752): ascending in the
metric for the two drawdown metrics (lower is better), descending for every
other metric (higher is better). -/
def metricLe (m : TargetMetric) (a b : OptimizationResultRow) : Bool :=
  if m = .maxDrawdown ∨ m = .maxDrawdownAmount then
    decide (metricValue m a.results ≤ metricValue m b.results)
  else
    decide (metricValue m b.results ≤ metricValue m a.results)

/-- One optimizer run (lines 729-737): overridden settings, full analysis of
the same chart data, backtest of the resulting signals on the LTF candles. -/
def optimizerRun (cd : ChartData) (baseSettings : Settings) (i : ℕ)
    (params : Overrides) : OptimizationResultRow :=
  let currentSettings := applyOverrides baseSettings params
  { id := i, params := params,
    results := runBacktest cd.ltf (analyzeSMC cd currentSettings).trades currentSettings none }

/-- `runOptimizer(chartData, baseSettings, optimizerSettings)` from
`smcService.ts` (lines 717-758): expand the grid, throw (here: `Except.error`
with the offending count in the message) past 500 combinations before any
run, otherwise run every combination, sort the rows by the target metric and
return them with the first row as the best run (`null` best for an empty run
list). -/
def runOptimizer (cd : ChartData) (baseSettings : Settings) (o : OptimizerSettings) :
    Except String OptimizationResults :=
  let combinations := generateCombinations o
  if combinations.length > 500 then
    .error ("Too many combinations to test: " ++ toString combinations.length ++
      ". Please narrow the optimization range.")
  else
    let runs := combinations.enum.map fun ip => optimizerRun cd baseSettings ip.1 ip.2
    if runs.length = 0 then .ok { runs := [], bestRun := none }
    else
      let sorted := runs.mergeSort (metricLe o.targetMetric)
      .ok { runs := sorted, bestRun := sorted.head? }

/-- Every enabled sweep range has a positive step — exactly the inputs on
which the source's range-expansion loop terminates. -/
def stepsPositive (o : OptimizerSettings) : Prop :=
  (o.htfSwingLookback.enabled = true → 0 < o.htfSwingLookback.step) ∧
  (o.ltfChochLookback.enabled = true → 0 < o.ltfChochLookback.step) ∧
  (o.discountZone.enabled = true → 0 < o.discountZone.step) ∧
  (o.rrRatio.enabled = true → 0 < o.rrRatio.step)

/-- C8: when the expanded grid has more than 500 combinations the optimizer
raises an error whose message reports the offending combination count,
before performing any analysis or backtest runs; with at most 500
combinations it runs every combination (the returned rows are a permutation
of one run per combination, in grid order before sorting). -/
theorem c8_combination_guard (cd : ChartData) (baseSettings : Settings)
    (o : OptimizerSettings) (_hsteps : stepsPositive o) :
    (500 < (generateCombinations o).length →
      runOptimizer cd baseSettings o = .error ("Too many combinations to test: " ++
        toString (generateCombinations o).length ++
        ". Please narrow the optimization range.")) ∧
    ((generateCombinations o).length ≤ 500 →
      ∃ res, runOptimizer cd baseSettings o = .ok res ∧
        res.runs.Perm ((generateCombinations o).enum.map fun ip =>
          optimizerRun cd baseSettings ip.1 ip.2)) := by
  constructor
  · intro h
    unfold runOptimizer
    dsimp only
    rw [if_pos h]
  · intro h
    unfold runOptimizer
    dsimp only
    rw [if_neg (by omega)]
    by_cases h0 : ((generateCombinations o).enum.map fun ip =>
        optimizerRun cd baseSettings ip.1 ip.2).length = 0
    · rw [if_pos h0]
      refine ⟨_, rfl, ?_⟩
      have hnil := List.length_eq_zero.mp h0
      rw [hnil]
    · rw [if_neg h0]
      exact ⟨_, rfl, List.mergeSort_perm _ _⟩

/-- Transitivity of the optimizer comparator. -/
theorem metricLe_trans (m : TargetMetric) : ∀ a b c, metricLe m a b = true →
    metricLe m b c = true → metricLe m a c = true := by
  intro a b c
  unfold metricLe
  split
  · simp only [decide_eq_true_eq]
    exact le_trans
  · simp only [decide_eq_true_eq]
    intro h1 h2
    exact le_trans h2 h1

/-- Totality of the optimizer comparator. -/
theorem metricLe_total (m : TargetMetric) : ∀ a b,
    (metricLe m a b || metricLe m b a) = true := by
  intro a b
  unfold metricLe
  split <;> simp [le_total]

/-- C9: every completed optimizer invocation returns a run list sorted by
the chosen metric — non-decreasing for `maxDrawdown`/`maxDrawdownAmount`,
non-increasing for every other metric — and a non-empty run list's best run
is its first element. -/
theorem c9_ranking (cd : ChartData) (baseSettings : Settings) (o : OptimizerSettings)
    (res : OptimizationResults) (_hsteps : stepsPositive o)
    (hok : runOptimizer cd baseSettings o = .ok res) :
    ((o.targetMetric = .maxDrawdown ∨ o.targetMetric = .maxDrawdownAmount) →
      res.runs.Pairwise fun a b =>
        metricValue o.targetMetric a.results ≤ metricValue o.targetMetric b.results) ∧
    (¬ (o.targetMetric = .maxDrawdown ∨ o.targetMetric = .maxDrawdownAmount) →
      res.runs.Pairwise fun a b =>
        metricValue o.targetMetric b.results ≤ metricValue o.targetMetric a.results) ∧
    (res.runs ≠ [] → res.bestRun = res.runs.head?) := by
  unfold runOptimizer at hok
  dsimp only at hok
  split at hok
  · exact absurd hok (by simp)
  · split at hok
    · have hres := Except.ok.inj hok
      subst hres
      exact ⟨fun _ => List.Pairwise.nil, fun _ => List.Pairwise.nil,
        fun hne => absurd rfl hne⟩
    · have hres := Except.ok.inj hok
      subst hres
      have hsorted := @List.sorted_mergeSort _ (metricLe o.targetMetric)
        (metricLe_trans o.targetMetric) (metricLe_total o.targetMetric)
        ((generateCombinations o).enum.map fun ip => optimizerRun cd baseSettings ip.1 ip.2)
      refine ⟨?_, ?_, fun _ => rfl⟩
      · intro hm
        refine hsorted.imp ?_
        intro a b hab
        unfold metricLe at hab
        rw [if_pos hm] at hab
        exact of_decide_eq_true hab
      · intro hm
        refine hsorted.imp ?_
        intro a b hab
        unfold metricLe at hab
        rw [if_neg hm] at hab
        exact of_decide_eq_true hab

/-- Empty chart data, used by the optimizer witnesses. -/
def emptyChart : ChartData := { htf := [], mtf := [], ltf := [] }

/-- Disabled natural sweep range with step 1. -/
def offNat : NatParam := { enabled := false, start := 1, stop := 1, step := 1 }

/-- Disabled rational sweep range with step 1. -/
def offRat : RatParam := { enabled := false, start := 1, stop := 1, step := 1 }

/-- Optimizer settings whose single enabled parameter expands to 501 values:
htfSwingLookback from 1 to 501 step 1. -/
def c8BigOpt : OptimizerSettings :=
  { htfSwingLookback := { enabled := true, start := 1, stop := 501, step := 1 },
    ltfChochLookback := offNat, discountZone := offRat, rrRatio := offRat,
    targetMetric := .netProfitPercent }

/-- Optimizer settings whose single enabled parameter expands to 2 values:
htfSwingLookback 1 and 2. -/
def c8SmallOpt : OptimizerSettings :=
  { htfSwingLookback := { enabled := true, start := 1, stop := 2, step := 1 },
    ltfChochLookback := offNat, discountZone := offRat, rrRatio := offRat,
    targetMetric := .netProfitPercent }

set_option maxRecDepth 40000 in
/-- C8 (witness): the guard theorem at a 501-combination grid (rejected with
the count in the message) and at a 2-combination grid (both combinations
run). -/
theorem c8_combination_guard_witness :
    500 < (generateCombinations c8BigOpt).length ∧
    runOptimizer emptyChart cexSettings c8BigOpt = .error ("Too many combinations to test: " ++
      toString (generateCombinations c8BigOpt).length ++
      ". Please narrow the optimization range.") ∧
    (generateCombinations c8SmallOpt).length ≤ 500 ∧
    ∃ res, runOptimizer emptyChart cexSettings c8SmallOpt = .ok res ∧
      res.runs.Perm ((generateCombinations c8SmallOpt).enum.map fun ip =>
        optimizerRun emptyChart cexSettings ip.1 ip.2) :=
  ⟨by decide,
   (c8_combination_guard emptyChart cexSettings c8BigOpt
      ⟨fun _ => by decide, fun _ => by decide, fun _ => by decide, fun _ => by decide⟩).1
    (by decide),
   by decide,
   (c8_combination_guard emptyChart cexSettings c8SmallOpt
      ⟨fun _ => by decide, fun _ => by decide, fun _ => by decide, fun _ => by decide⟩).2
    (by decide)⟩

/-- The zeroed backtest result of a run with no closed trades and starting
capital 1000. -/
def c9ZeroResults : BacktestResults :=
  { trades := [], maxDrawdown := 0, maxDrawdownAmount := 0, netProfitPercent := 0,
    winRate := 0, profitFactor := 0, finalEquity := 1000, totalTrades := 0 }

/-- First optimizer row of the C9 witness run. -/
def c9Row0 : OptimizationResultRow :=
  { id := 0,
    params := { htfSwingLookback := some 1, ltfChochLookback := none,
                discountZone := none, rrRatio := none },
    results := c9ZeroResults }

/-- Second optimizer row of the C9 witness run. -/
def c9Row1 : OptimizationResultRow :=
  { id := 1,
    params := { htfSwingLookback := some 2, ltfChochLookback := none,
                discountZone := none, rrRatio := none },
    results := c9ZeroResults }

/-- The full optimizer result of the C9 witness run. -/
def c9Res : OptimizationResults :=
  { runs := [c9Row0, c9Row1], bestRun := some c9Row0 }

set_option maxRecDepth 4000 in
/-- C9 (witness): the ranking theorem applied to a concretely evaluated
two-combination optimizer run ranked by `netProfitPercent`. -/
theorem c9_ranking_witness :
    runOptimizer emptyChart cexSettings c8SmallOpt = .ok c9Res ∧
    ((c8SmallOpt.targetMetric = .maxDrawdown ∨
        c8SmallOpt.targetMetric = .maxDrawdownAmount) →
      c9Res.runs.Pairwise fun a b =>
        metricValue c8SmallOpt.targetMetric a.results ≤
          metricValue c8SmallOpt.targetMetric b.results) ∧
    (¬ (c8SmallOpt.targetMetric = .maxDrawdown ∨
        c8SmallOpt.targetMetric = .maxDrawdownAmount) →
      c9Res.runs.Pairwise fun a b =>
        metricValue c8SmallOpt.targetMetric b.results ≤
          metricValue c8SmallOpt.targetMetric a.results) ∧
    (c9Res.runs ≠ [] → c9Res.bestRun = c9Res.runs.head?) := by
  have hok : runOptimizer emptyChart cexSettings c8SmallOpt = .ok c9Res := by
    unfold runOptimizer
    dsimp only
    rw [if_neg (by decide)]
    have hruns : ((generateCombinations c8SmallOpt).enum.map fun ip =>
        optimizerRun emptyChart cexSettings ip.1 ip.2) = [c9Row0, c9Row1] := by
      have hcomb : generateCombinations c8SmallOpt =
          [{ htfSwingLookback := some 1, ltfChochLookback := none,
             discountZone := none, rrRatio := none },
           { htfSwingLookback := some 2, ltfChochLookback := none,
             discountZone := none, rrRatio := none }] := by decide
      rw [hcomb]
      simp only [List.enum, List.enumFrom, List.map_cons, List.map_nil]
      simp only [optimizerRun, applyOverrides, analyzeSMC, emptyChart, cexSettings,
        runBacktest, initState, List.mergeSort_nil, List.foldl_nil, BtState.trades,
        Option.toList, Option.getD, List.filter_nil, List.append_nil, List.length_nil,
        c9Row0, c9Row1, c9ZeroResults]
      norm_num
    rw [hruns]
    rw [if_neg (by decide)]
    rw [List.mergeSort_of_sorted (by decide)]
    rfl
  have h := c9_ranking emptyChart cexSettings c8SmallOpt c9Res
    ⟨fun _ => by decide, fun _ => by decide, fun _ => by decide, fun _ => by decide⟩ hok
  exact ⟨hok, h.1, h.2.1, h.2.2⟩

end SMC
